import Mathlib

/-!
Verification of the RAG document-processing, retrieval and evaluation core.

The Python sources are shallowly embedded:
* strings are `List Char` (Python `str` is a sequence of code points);
* the specific regular expressions used by the code are implemented directly,
  with Python's leftmost-match / greedy / lazy backtracking semantics
  reproduced for exactly the patterns that occur in the source;
* machine floats only ever flow through the code unchanged (relevance scores,
  latencies); they are modelled as rationals;
* operations that can raise return `Except`/`Option`.

Recursions that advance a scan position by a variable amount use an explicit
fuel argument (always called with `length + 1`, which is sufficient because
every step consumes at least one character); this keeps every definition
structurally recursive and kernel-evaluable.
-/

namespace RAG

/-- Python's `re` class `\s` for `str` patterns: the ASCII whitespace
characters `\t \n \v \f \r`, space, the file/group/record/unit separators
`\x1c`–`\x1f`, `\x85`, `\xa0`, and the Unicode space characters. -/
def isPySpace (c : Char) : Bool :=
  c = ' ' || c = '\t' || c = '\n' || c = '\r' ||
  c.val = 11 || c.val = 12 ||
  (28 ≤ c.val && c.val ≤ 31) || c.val = 133 || c.val = 160 ||
  c.val = 0x1680 || (0x2000 ≤ c.val && c.val ≤ 0x200A) ||
  c.val = 0x2028 || c.val = 0x2029 || c.val = 0x202F || c.val = 0x205F ||
  c.val = 0x3000

/-- Python's `re` class `\w`, modelled on the ASCII fragment:
letters, digits and underscore.  (Unicode letters outside ASCII also match
`\w` in Python; no text in this development contains any.) -/
def isPyWord (c : Char) : Bool :=
  c.isAlphanum || c = '_'

/-- `re.sub(r'\s+', ' ', text)` from `clean_text`
(processor.py line 102): every maximal run of whitespace characters is
replaced by a single space.  A run is collapsed onto its last character. -/
def collapseWS : List Char → List Char
  | [] => []
  | [c] => [if isPySpace c then ' ' else c]
  | c :: d :: cs =>
    if isPySpace c && isPySpace d then collapseWS (d :: cs)
    else (if isPySpace c then ' ' else c) :: collapseWS (d :: cs)

/-- Python `str.strip()`: remove leading and trailing whitespace. -/
def stripSpaces (l : List Char) : List Char :=
  ((l.dropWhile isPySpace).reverse.dropWhile isPySpace).reverse

/-- `re.sub(r'(\w)-\s+(\w)', r'\1\2', text)` from `clean_text`
(processor.py line 105): a word character, a hyphen, at least one whitespace
character and a word character are replaced by the two word characters.
`re.sub` scans left to right and resumes after each replaced match;
`\s+` is effectively deterministic here because `\s` and `\w` are disjoint.
The first argument is fuel (callers pass `length + 1`). -/
def hyphenFix : Nat → List Char → List Char
  | 0, l => l
  | _ + 1, [] => []
  | fuel + 1, a :: rest =>
    if isPyWord a = true ∧ rest.head? = some '-' then
      let rest2 := rest.tail
      let sp := rest2.takeWhile isPySpace
      let rem := rest2.dropWhile isPySpace
      match rem with
      | b :: rest3 =>
        if sp ≠ [] ∧ isPyWord b = true then a :: b :: hyphenFix fuel rest3
        else a :: hyphenFix fuel rest
      | [] => a :: hyphenFix fuel rest
    else a :: hyphenFix fuel rest

/-- Attempt to match `Page \d+ of \d+` at the head of `l`
(the pattern of processor.py line 108); on success return the remainder
of the list after the match.  Both `\d+` are greedy and deterministic
(a digit is neither a space nor `o`). -/
def pageMatchAt (l : List Char) : Option (List Char) :=
  if l.take 5 = ("Page ").data then
    let r1 := l.drop 5
    let ds1 := r1.takeWhile Char.isDigit
    if ds1 = [] then none
    else
      let r2 := r1.drop ds1.length
      if r2.take 4 = (" of ").data then
        let r3 := r2.drop 4
        let ds2 := r3.takeWhile Char.isDigit
        if ds2 = [] then none else some (r3.drop ds2.length)
      else none
  else none

/-- `re.sub(r'Page \d+ of \d+', '', text)` from `clean_text`
(processor.py line 108).  Fuel first (callers pass `length + 1`). -/
def pageRemove : Nat → List Char → List Char
  | 0, l => l
  | _ + 1, [] => []
  | fuel + 1, c :: cs =>
    match pageMatchAt (c :: cs) with
    | some rest => pageRemove fuel rest
    | none => c :: pageRemove fuel cs

/-- `unicodedata.normalize('NFKC', text)` (processor.py line 111), a call
into the Python standard library.  It is modelled as the identity, which is
exactly correct on the ASCII fragment (NFKC fixes every ASCII string);
every concrete text in this development is ASCII, and every universally
quantified theorem whose truth depends on this step restricts its
hypotheses to ASCII characters. -/
def nfkc (l : List Char) : List Char := l

/-- `DocumentProcessor.clean_text` (processor.py lines 91–113):
whitespace collapse + strip, hyphen-break rejoining, `Page N of M`
removal, NFKC normalization, in that order. -/
def clean_text (text : List Char) : List Char :=
  let t1 := stripSpaces (collapseWS text)
  let t2 := hyphenFix (t1.length + 1) t1
  let t3 := pageRemove (t2.length + 1) t2
  nfkc t3

/-!
The question-boundary scan of `DocumentProcessor.chunk_documents`
(processor.py lines 182–189):

    question_pattern = r'(?:\n|\A)\s*(\d+[\.,]?\s*(?:[A-Za-z0-9])[^\n]{2,}?(?:[?:\.]))'
    matches = list(re.finditer(question_pattern, text))
    if not matches:
        simple_pattern = r'(?:\n|\A)\s*(\d+[\.,])'
        matches = list(re.finditer(simple_pattern, text))

The matchers below reproduce Python's backtracking for exactly these
patterns.  Notes on determinism:
* `\s*` followed by `\d+` (or by the required alphanumeric) never
  backtracks usefully, since `\s` is disjoint from both classes —
  maximal munch is faithful;
* `\d+` genuinely backtracks (a shorter digit run lets the following
  optional separator be skipped and the required `[A-Za-z0-9]` consume a
  digit), so digit runs are tried longest-first;
* `[\.,]?` is greedy: the separator-consuming alternative is tried first;
* `[^\n]{2,}?` is lazy: after the mandatory two characters the terminator
  class `[?:.]` is tried before each further extension.
-/

/-- Lazy `[^\n]{n,}?(?:[?:\.])`: consume at least `n` non-newline
characters, then the earliest possible terminator `?`, `:` or `.`.
Returns (consumed characters including the terminator, rest). -/
def findTerm : Nat → List Char → Option (List Char × List Char)
  | _, [] => none
  | n, c :: cs =>
    if c = '\n' then none
    else if n = 0 ∧ (c = '?' ∨ c = ':' ∨ c = '.') then some ([c], cs)
    else
      match findTerm (n - 1) cs with
      | some (g, rest) => some (c :: g, rest)
      | none => none

/-- The part `\s*(?:[A-Za-z0-9])[^\n]{2,}?(?:[?:\.])` of the question
pattern.  Returns (consumed characters, rest). -/
def groupTail (l : List Char) : Option (List Char × List Char) :=
  let sp := l.takeWhile isPySpace
  match l.dropWhile isPySpace with
  | c :: cs =>
    if c.isAlphanum then
      match findTerm 2 cs with
      | some (g, rest) => some (sp ++ c :: g, rest)
      | none => none
    else none
  | [] => none

/-- The optional separator `[\.,]?` (the consuming branch). -/
def withSep : List Char → Option (Char × List Char)
  | c :: cs => if c = '.' ∨ c = ',' then some (c, cs) else none
  | [] => none

/-- Backtracking over the greedy `\d+` of the question pattern: try
`n` leading digits, preferring more digits, and for each digit count
prefer consuming the optional separator.  `l` starts at the digits. -/
def p1TryDigits (l : List Char) : Nat → Option (List Char × List Char)
  | 0 => none
  | nd + 1 =>
    let dtaken := l.take (nd + 1)
    let rest := l.drop (nd + 1)
    let attempt :=
      match withSep rest with
      | some (sep, rest2) =>
        match groupTail rest2 with
        | some (g, r) => some (dtaken ++ sep :: g, r)
        | none =>
          match groupTail rest with
          | some (g, r) => some (dtaken ++ g, r)
          | none => none
      | none =>
        match groupTail rest with
        | some (g, r) => some (dtaken ++ g, r)
        | none => none
    match attempt with
    | some res => some res
    | none => p1TryDigits l nd

/-- Group 1 of the question pattern,
`\d+[\.,]?\s*(?:[A-Za-z0-9])[^\n]{2,}?(?:[?:\.])`, matched at the head of
`l`.  Returns (captured group, rest after the match). -/
def p1Group (l : List Char) : Option (List Char × List Char) :=
  p1TryDigits l (l.takeWhile Char.isDigit).length

/-- The question pattern matched at absolute position `p`, where `s` is the
suffix of the text starting at `p`.  `(?:\n|\A)` anchors the match at the
start of text or at a newline; the leading `\s*` then absorbs whitespace
(when `p = 0` and the text starts with a newline both alternatives land at
the same place, since `\n` is itself whitespace).  Returns (group 1, rest
after the match); the match ends with group 1. -/
def p1MatchAt (p : Nat) (s : List Char) : Option (List Char × List Char) :=
  if p = 0 then p1Group (s.dropWhile isPySpace)
  else
    match s with
    | c :: cs => if c = '\n' then p1Group (cs.dropWhile isPySpace) else none
    | [] => none

/-- Group 1 of the simple fallback pattern `(\d+[\.,])`: a digit run
followed by a mandatory `.` or `,` (both deterministic). -/
def p2Group (l : List Char) : Option (List Char × List Char) :=
  let ds := l.takeWhile Char.isDigit
  if ds = [] then none
  else
    match l.drop ds.length with
    | c :: cs => if c = '.' ∨ c = ',' then some (ds ++ [c], cs) else none
    | [] => none

/-- The simple pattern `(?:\n|\A)\s*(\d+[\.,])` matched at position `p`. -/
def p2MatchAt (p : Nat) (s : List Char) : Option (List Char × List Char) :=
  if p = 0 then p2Group (s.dropWhile isPySpace)
  else
    match s with
    | c :: cs => if c = '\n' then p2Group (cs.dropWhile isPySpace) else none
    | [] => none

/-- `re.finditer` for a matcher `matchAt`: scan every position left to
right, record `(match.start, group)` for each match, and resume after the
end of each match (all matches here are non-empty).  Fuel first (callers
pass `length + 1`; every step consumes at least one character). -/
def scanWith (matchAt : Nat → List Char → Option (List Char × List Char)) :
    Nat → Nat → List Char → List (Nat × List Char)
  | 0, _, _ => []
  | _ + 1, _, [] => []
  | fuel + 1, p, c :: cs =>
    match matchAt p (c :: cs) with
    | some (g, rest) =>
      (p, g) :: scanWith matchAt fuel (p + ((c :: cs).length - rest.length)) rest
    | none => scanWith matchAt fuel (p + 1) cs

/-- `list(re.finditer(question_pattern, text))` (processor.py line 184),
as (start position, group 1) pairs. -/
def question_pattern_matches (text : List Char) : List (Nat × List Char) :=
  scanWith p1MatchAt (text.length + 1) 0 text

/-- `list(re.finditer(simple_pattern, text))` (processor.py line 189). -/
def simple_pattern_matches (text : List Char) : List (Nat × List Char) :=
  scanWith p2MatchAt (text.length + 1) 0 text

/-- The boundary scan with its fallback (processor.py lines 183–189):
the question pattern, and if it produced nothing, the simple pattern. -/
def findQuestionMatches (text : List Char) : List (Nat × List Char) :=
  let ms := question_pattern_matches text
  if ms = [] then simple_pattern_matches text else ms

/-!  `DocumentProcessor.extract_metadata` (processor.py lines 115–156). -/

/-- The terminator alternation `(Pass|Offer|Launch|Series)` of the first
title rule, tried at the head of `l` (the alternatives begin with distinct
letters, so at most one can match at a given position). -/
def titleTermAt (l : List Char) : Option (List Char × List Char) :=
  if l.take 4 = ("Pass").data then some (("Pass").data, l.drop 4)
  else if l.take 5 = ("Offer").data then some (("Offer").data, l.drop 5)
  else if l.take 6 = ("Launch").data then some (("Launch").data, l.drop 6)
  else if l.take 6 = ("Series").data then some (("Series").data, l.drop 6)
  else none

/-- Lazy `.*?(Pass|Offer|Launch|Series)`: at each offset first try a
terminator, otherwise consume one non-newline character.  Returns the
consumed middle together with the terminator. -/
def lazyToTitleTerm : List Char → Option (List Char)
  | [] => none
  | c :: cs =>
    match titleTermAt (c :: cs) with
    | some (t, _) => some t
    | none => if c = '\n' then none else (lazyToTitleTerm cs).map (c :: ·)

/-- `re.search(r'(CelcomDigi.*?)(Pass|Offer|Launch|Series)', text)`
(processor.py line 126): the leftmost occurrence of `CelcomDigi` from which
a terminator is reachable on the same line; the result is `group(0)`. -/
def titleRule1 : List Char → Option (List Char)
  | [] => none
  | c :: cs =>
    if (c :: cs).take 10 = ("CelcomDigi").data then
      match lazyToTitleTerm ((c :: cs).drop 10) with
      | some m => some (("CelcomDigi").data ++ m)
      | none => titleRule1 cs
    else titleRule1 cs

/-- `\s+` (greedy; deterministic whenever what follows cannot start with
whitespace).  Returns (consumed run, rest); fails on an empty run. -/
def spaces1 (l : List Char) : Option (List Char × List Char) :=
  let sp := l.takeWhile isPySpace
  if sp = [] then none else some (sp, l.dropWhile isPySpace)

/-- `Port-In\s+Rebate\s+Offer`, tried at the head of `l`. -/
def portInAt (l : List Char) : Option (List Char) :=
  if l.take 7 = ("Port-In").data then
    match spaces1 (l.drop 7) with
    | some (sp1, r1) =>
      if r1.take 6 = ("Rebate").data then
        match spaces1 (r1.drop 6) with
        | some (sp2, r2) =>
          if r2.take 5 = ("Offer").data then
            some (("Port-In").data ++ sp1 ++ ("Rebate").data ++ sp2 ++ ("Offer").data)
          else none
        | none => none
      else none
    | none => none
  else none

/-- `Samsung\s+Galaxy\s+S\d+\s+Series`, tried at the head of `l`
(`\d+` is greedy and deterministic: digits are disjoint from `\s`). -/
def samsungAt (l : List Char) : Option (List Char) :=
  if l.take 7 = ("Samsung").data then
    match spaces1 (l.drop 7) with
    | some (sp1, r1) =>
      if r1.take 6 = ("Galaxy").data then
        match spaces1 (r1.drop 6) with
        | some (sp2, r2) =>
          match r2 with
          | 'S' :: r3 =>
            let ds := r3.takeWhile Char.isDigit
            if ds = [] then none
            else
              match spaces1 (r3.drop ds.length) with
              | some (sp3, r4) =>
                if r4.take 6 = ("Series").data then
                  some (("Samsung").data ++ sp1 ++ ("Galaxy").data ++ sp2 ++
                    'S' :: ds ++ sp3 ++ ("Series").data)
                else none
              | none => none
          | _ => none
        | none => none
      else none
    | none => none
  else none

/-- `re.search(r'(Port-In\s+Rebate\s+Offer|Samsung\s+Galaxy\s+S\d+\s+Series)', text)`
(processor.py line 134): leftmost position, first alternative preferred. -/
def titleRule2 : List Char → Option (List Char)
  | [] => none
  | c :: cs =>
    match portInAt (c :: cs) with
    | some m => some m
    | none =>
      match samsungAt (c :: cs) with
      | some m => some m
      | none => titleRule2 cs

/-- The optional tail `(?:\s*at\s*[\d:]+\s*[AP]M)?` of the date pattern,
tried at the head of `l`; returns the consumed characters on success.
Maximal munch is faithful throughout: every starred class is disjoint
from what must follow it. -/
def dateOptAt (l : List Char) : Option (List Char) :=
  let sp1 := l.takeWhile isPySpace
  let r1 := l.dropWhile isPySpace
  if r1.take 2 = ("at").data then
    let r2 := r1.drop 2
    let sp2 := r2.takeWhile isPySpace
    let r3 := r2.dropWhile isPySpace
    let ds := r3.takeWhile (fun c => c.isDigit || c = ':')
    if ds = [] then none
    else
      let r4 := r3.drop ds.length
      let sp3 := r4.takeWhile isPySpace
      let r5 := r4.dropWhile isPySpace
      match r5 with
      | c :: m :: _ =>
        if (c = 'A' ∨ c = 'P') ∧ m = 'M' then
          some (sp1 ++ ("at").data ++ sp2 ++ ds ++ sp3 ++ [c, m])
        else none
      | _ => none
  else none

/-- Group 1 of the date pattern,
`[A-Za-z]+,\s*\d+\s*[A-Za-z]+(?:\s*at\s*[\d:]+\s*[AP]M)?`, tried at the
head of `l`.  (`Char.isAlpha` is exactly `[A-Za-z]`.)  The greedy optional
group is included when it matches and dropped when it does not; either
way the pattern then succeeds, so no further backtracking arises. -/
def dateGroupAt (l : List Char) : Option (List Char) :=
  let w1 := l.takeWhile Char.isAlpha
  if w1 = [] then none
  else
    match l.drop w1.length with
    | ',' :: r1 =>
      let sp1 := r1.takeWhile isPySpace
      let r2 := r1.dropWhile isPySpace
      let ds := r2.takeWhile Char.isDigit
      if ds = [] then none
      else
        let r3 := r2.drop ds.length
        let sp2 := r3.takeWhile isPySpace
        let r4 := r3.dropWhile isPySpace
        let w2 := r4.takeWhile Char.isAlpha
        if w2 = [] then none
        else some (w1 ++ ',' :: sp1 ++ ds ++ sp2 ++ w2 ++
          ((dateOptAt (r4.drop w2.length)).getD []))
    | _ => none

/-- `re.search(r'Modified on ([A-Za-z]+,\s*\d+\s*[A-Za-z]+(?:\s*at\s*[\d:]+\s*[AP]M)?)', text)`
(processor.py line 142), returning `group(1)`: tried at the leftmost
occurrence of the literal `Modified on ` whose continuation matches. -/
def dateSearch : List Char → Option (List Char)
  | [] => none
  | c :: cs =>
    if (c :: cs).take 12 = ("Modified on ").data then
      match dateGroupAt ((c :: cs).drop 12) with
      | some g => some g
      | none => dateSearch cs
    else dateSearch cs

/-- Lazy `(.*?)[.?]`: the characters before the earliest `.` or `?`
reachable without crossing a newline (the group may be empty). -/
def lazyToDot : List Char → Option (List Char)
  | [] => none
  | c :: cs =>
    if c = '.' ∨ c = '?' then some []
    else if c = '\n' then none
    else (lazyToDot cs).map (c :: ·)

/-- `re.search(r'\d+[\.,]\s+(.*?)[.?]', text)` (processor.py line 147),
returning `group(1)`: a digit run, a mandatory `.` or `,`, at least one
whitespace character, then the lazy capture up to `.` or `?`. -/
def descSearch : List Char → Option (List Char)
  | [] => none
  | c :: cs =>
    (if c.isDigit then
      let ds := (c :: cs).takeWhile Char.isDigit
      match (c :: cs).drop ds.length with
      | s :: r2 =>
        if s = '.' ∨ s = ',' then
          match spaces1 r2 with
          | some (_, r3) => lazyToDot r3
          | none => none
        else none
      | [] => none
    else none).orElse (fun _ => descSearch cs)

/-- The metadata record built by `extract_metadata`
(processor.py lines 151–156).  All fields are strings; `date` and
`description` are empty (never null) when their patterns fail. -/
structure DocMetadata where
  source : List Char
  title : List Char
  date : List Char
  description : List Char
deriving DecidableEq

/-- `DocumentProcessor.extract_metadata` (processor.py lines 115–156):
title by the two ordered rules with the document's source as default;
date by the `Modified on` pattern with `""` as default; description is
the first numbered-item phrase, stripped, with `""` as default.
The function is total: every input produces a record. -/
def extract_metadata (source text : List Char) : DocMetadata :=
  let title :=
    match titleRule1 text with
    | some t => t
    | none =>
      match titleRule2 text with
      | some t => t
      | none => source
  let date := (dateSearch text).getD []
  let first_question :=
    match descSearch text with
    | some q => stripSpaces q
    | none => []
  ⟨source, title, date, first_question⟩

/-!  `DocumentProcessor.chunk_documents` (processor.py lines 158–240). -/

/-- The numeric value of a digit string, as Python's `int` reads it. -/
def natOfDigits (ds : List Char) : Nat :=
  ds.foldl (fun acc c => acc * 10 + (c.toNat - 48)) 0

/-- `re.match(r'\s*(\d+)[\.,]?', match.group(1))` followed by
`int(q_num_match.group(1))` (processor.py lines 211–213): the parsed
question number of a boundary's captured text, when present. -/
def qNumOf (g : List Char) : Option Nat :=
  let ds := (g.dropWhile isPySpace).takeWhile Char.isDigit
  if ds = [] then none else some (natOfDigits ds)

/-- One recorded boundary: `(match.start(), q_num, match.group(1))`
(processor.py line 214). -/
structure Boundary where
  pos : Nat
  qnum : Nat
  qtext : List Char
deriving DecidableEq

/-- The `positions` list built from the matches
(processor.py lines 209–214): matches whose captured text yields a
question number, in scan order. -/
def boundariesOf (ms : List (Nat × List Char)) : List Boundary :=
  ms.filterMap fun m => (qNumOf m.2).map fun n => ⟨m.1, n, m.2⟩

/-- The comparison used by `positions.sort(key=lambda x: x[1])`
(processor.py line 217). -/
def qnumLE (a b : Boundary) : Prop := a.qnum ≤ b.qnum

instance : DecidableRel qnumLE := fun a b => Nat.decLe a.qnum b.qnum

instance : IsTotal Boundary qnumLE := ⟨fun a b => Nat.le_total a.qnum b.qnum⟩

instance : IsTrans Boundary qnumLE := ⟨fun _ _ _ h1 h2 => Nat.le_trans h1 h2⟩

/-- `positions.sort(key=lambda x: x[1])` (processor.py line 217).
Python's `list.sort` is a stable sort by the parsed question number; a
stable sort is determined up to extensional equality by its comparison,
so it is modelled by stable insertion sort. -/
def sortByQnum (l : List Boundary) : List Boundary :=
  List.insertionSort qnumLE l

/-- `re.sub(r'^\s*\d+[\.,]?\s*', '', question).strip()`
(processor.py line 227): the anchored match (leading whitespace, a digit
run, an optional separator, whitespace) is removed when present — the
pattern requires at least one digit — and the result is stripped. -/
def stripLeadingNumber (g : List Char) : List Char :=
  let l1 := g.dropWhile isPySpace
  let ds := l1.takeWhile Char.isDigit
  if ds = [] then stripSpaces g
  else
    let l2 := l1.drop ds.length
    let l3 :=
      match l2 with
      | c :: cs => if c = '.' ∨ c = ',' then cs else l2
      | [] => l2
    stripSpaces (l3.dropWhile isPySpace)

/-- A chunk as emitted by `chunk_documents`: the cleaned content together
with the document metadata; question-anchored chunks additionally carry
the `question` and `question_number` metadata keys
(processor.py lines 226–235). -/
structure Chunk where
  content : List Char
  meta : DocMetadata
  question : Option (List Char)
  question_number : Option Nat
deriving DecidableEq

/-- `end_pos = positions[i+1][0] if i < len(positions) - 1 else len(text)`
(processor.py line 221): the next boundary's position, end of text for
the last boundary. -/
def endPosOf (text : List Char) : List Boundary → Nat
  | b2 :: _ => b2.pos
  | [] => text.length

/-- The chunk-emission loop over the sorted boundary list
(processor.py lines 220–235): for boundary `i` the raw span runs from its
position to the next boundary's position (end of text for the last), the
span is stripped and cleaned, and the chunk is emitted unless the cleaned
text is empty. -/
def chunksFromBoundaries (md : DocMetadata) (text : List Char) :
    List Boundary → List Chunk
  | [] => []
  | b :: rest =>
    let chunk_text :=
      clean_text (stripSpaces ((text.drop b.pos).take (endPosOf text rest - b.pos)))
    let cs := chunksFromBoundaries md text rest
    if chunk_text = [] then cs
    else ⟨chunk_text, md, some (stripLeadingNumber b.qtext), some b.qnum⟩ :: cs

/-- A raw document: `Document(page_content=text, metadata={"source": ...})`
(processor.py lines 59–62). -/
structure RawDoc where
  source : List Char
  text : List Char
deriving DecidableEq

/-- `DocumentProcessor.chunk_documents` (processor.py lines 158–240),
parameterized by the external fixed-size splitter
(`RecursiveCharacterTextSplitter(chunk_size=1000, chunk_overlap=100).split_text`,
an external library call) used by the fallback branch.  Per document:
extract metadata, scan for question boundaries (with the simple-pattern
fallback); if none found, emit one chunk per splitter window, cleaned,
with no question metadata and no emptiness check; otherwise sort the
recorded boundaries by question number and emit the span chunks. -/
def chunk_documents (splitter : List Char → List (List Char))
    (documents : List RawDoc) : List Chunk :=
  documents.flatMap fun document =>
    let text := document.text
    let md := extract_metadata document.source text
    let ms := findQuestionMatches text
    if ms = [] then
      (splitter text).map fun w => ⟨clean_text w, md, none, none⟩
    else
      chunksFromBoundaries md text (sortByQnum (boundariesOf ms))

/-- The spec-side description of the question-anchored emission
(spec §4.2 steps 4–6), stated independently of the loop: pair each sorted
boundary with the next sorted boundary's position (end of text for the
last) by zipping, and emit the cleaned span for each pair, dropping
empty-after-normalization chunks. -/
def specSpanChunks (md : DocMetadata) (text : List Char)
    (bs : List Boundary) : List Chunk :=
  (bs.zip ((bs.tail.map Boundary.pos) ++ [text.length])).filterMap fun be =>
    let chunk_text := clean_text (stripSpaces ((text.drop be.1.pos).take (be.2 - be.1.pos)))
    if chunk_text = [] then none
    else some ⟨chunk_text, md, some (stripLeadingNumber be.1.qtext), some be.1.qnum⟩

/-- The demo text of the spec's concrete segmentation scenario. -/
def demoText : List Char := ("1. What is X? X is Y.\n2. What is Z? Z is W.").data

/-- Modelled from the spec (§4.2 step 3): the behaviour of the external
fixed-size splitter (`RecursiveCharacterTextSplitter` with a 1000-character
budget, a library call outside this repository) on a text that fits within
one window — the text itself is the only window.  Every concrete document
below is far below the budget; in the question-anchored branch the
splitter is unused. -/
def singleWindow (t : List Char) : List (List Char) := [t]

/-- The first chunk of the spec's concrete segmentation scenario. -/
def demoChunk1 : Chunk :=
  ⟨("1. What is X? X is Y.").data,
    ⟨("demo.pdf").data, ("demo.pdf").data, [], ("What is X").data⟩,
    some (("What is X?").data), some 1⟩

/-- The second chunk of the spec's concrete segmentation scenario. -/
def demoChunk2 : Chunk :=
  ⟨("2. What is Z? Z is W.").data,
    ⟨("demo.pdf").data, ("demo.pdf").data, [], ("What is X").data⟩,
    some (("What is Z?").data), some 2⟩

/-- A document whose two question boundaries carry the same parsed
question number (for the stability analysis of the boundary sort). -/
def dupText : List Char := ("1. What is A? aa.\n1. What is B? bb.").data

/-!  `DocumentRetriever.retrieve` (retriever.py lines 38–90) and
`evaluate_recall_at_k` (evaluation.py lines 29–108). -/

/-- The metadata dictionary attached to an indexed document, restricted to
the key the evaluation reads: `metadata.get("source", "Unknown")`
(evaluation.py line 79).  `none` models an absent key. -/
structure RMeta where
  source : Option (List Char)
deriving DecidableEq

/-- One `(doc, score)` pair as returned by the external vector index call
`vectorstore.similarity_search_with_relevance_scores(query, k)`
(retriever.py lines 74–77).  Scores are floats that the code only passes
through; they are modelled as rationals. -/
structure IndexEntry where
  content : List Char
  meta : RMeta
  score : ℚ
deriving DecidableEq

/-- The shaped result dictionary `{"content", "metadata", "relevance_score"}`
(retriever.py lines 83–87). -/
structure RetrievalResult where
  content : List Char
  meta : RMeta
  relevance_score : ℚ
deriving DecidableEq

/-- `DocumentRetriever.retrieve` (retriever.py lines 38–90), parameterized
by the external index (`search`): invoke the index with `(query, k)` and
reshape each `(doc, score)` pair into the result structure, preserving
order; nothing is added, dropped, reordered or clamped. -/
def retrieve (search : List Char → Nat → List IndexEntry)
    (query : List Char) (k : Nat) : List RetrievalResult :=
  (search query k).map fun e => ⟨e.content, e.meta, e.score⟩

/-- One test case of `TEST_QUESTIONS` (test_questions.py). -/
structure TestCase where
  question : List Char
  expected_answer : Option (List Char)
  source_document : List Char
deriving DecidableEq

/-- `TEST_QUESTIONS` (test_questions.py lines 3–54): the fixed battery of
ten test cases; every case supplies an `expected_answer`. -/
def TEST_QUESTIONS : List TestCase :=
  [⟨("What are the offerings for Sahur and Moreh Pass?").data,
    some (("Sahur Pass RM7 Moreh Pass RM7").data),
    ("celcomdigi-eratkanikatan-sahur-moreh-pass.pdf").data⟩,
   ⟨("When is the Samsung Galaxy S25 Series launching?").data,
    some (("starting from 14th February 2025 at 10:00 a.m. onwards").data),
    ("celcomdigi_samsung_galaxy_s25_series_launch.pdf").data⟩,
   ⟨("How do I track my Internet pass for Raya Video Pass?").data,
    some (("You can track and manage your account via the Celcom Life or MyDigi app").data),
    ("celcomdigi_raya_video_internet_pass.pdf").data⟩,
   ⟨("What happens to unused Internet quota for Sahur Pass?").data,
    some (("Any unused Internet quota will be forfeited upon expiry").data),
    ("celcomdigi-eratkanikatan-sahur-moreh-pass.pdf").data⟩,
   ⟨("What rebate do I get when I port-in my postpaid line?").data,
    some (("RM20 x 6months").data),
    ("celcomdigi_port-in-rebate-offer.pdf").data⟩,
   ⟨("When exactly does the Raya passes expire?").data,
    some (("valid until 11.59PM on the 4th day of the successful subscription").data),
    ("celcomdigi_raya_video_internet_pass.pdf").data⟩,
   ⟨("Where can I trade in my device for the Samsung Galaxy S25?").data,
    some (("by downloading the latest CompAsia app and having it diagnosed and evaluated through the app").data),
    ("celcomdigi_samsung_galaxy_s25_series_launch.pdf").data⟩,
   ⟨("Does the RM20 x 6 months port-in rebate come with a contract?").data,
    some (("No. Both the RM20 x 6 months port-in rebates do not come with contract").data),
    ("celcomdigi_port-in-rebate-offer.pdf").data⟩,
   ⟨("Can I use the Sahur Pass while roaming?").data,
    some (("No. It is only applicable for domestic use").data),
    ("celcomdigi-eratkanikatan-sahur-moreh-pass.pdf").data⟩,
   ⟨("Who is eligible to purchase the Samsung Galaxy S25?").data,
    some (("All customers with new registration (including port-ins and prepaid-to-postpaid conversions) Existing customers without any device contract and no call bar").data),
    ("celcomdigi_samsung_galaxy_s25_series_launch.pdf").data⟩]

/-- `sources = [doc["metadata"].get("source", "Unknown") for doc in retrieved_docs]`
(evaluation.py line 79). -/
def sourcesOf (docs : List RetrievalResult) : List (List Char) :=
  docs.map fun d => d.meta.source.getD (("Unknown").data)

/-- `correct_retrieval = source_doc in sources` (evaluation.py line 80)
for one test case. -/
def correct_retrieval (search : List Char → Nat → List IndexEntry)
    (k : Nat) (tc : TestCase) : Bool :=
  (sourcesOf (retrieve search tc.question k)).contains tc.source_document

/-- Spec-side definition, following the spec's words (§4.4 step 2):
retrieval is correct for a case iff the case's `source_document` appears
among the sources of the returned results — stated as an existential over
the retrieved results. -/
def spec_correct_case (search : List Char → Nat → List IndexEntry)
    (k : Nat) (tc : TestCase) : Prop :=
  ∃ d ∈ retrieve search tc.question k,
    d.meta.source.getD (("Unknown").data) = tc.source_document

instance (search : List Char → Nat → List IndexEntry) (k : Nat) (tc : TestCase) :
    Decidable (spec_correct_case search k tc) := by
  unfold spec_correct_case
  exact inferInstance

/-- The report dictionary returned by `evaluate_recall_at_k`
(evaluation.py lines 105–108): exactly the two keys `recall_at_k` and
`avg_retrieval_time`. -/
structure EvalReport where
  recall_at_k : ℚ
  avg_retrieval_time : ℚ
deriving DecidableEq

/-- `evaluate_recall_at_k` (evaluation.py lines 29–108), parameterized by
the external index (`search`) and by the measured wall-clock latency of
the `i`-th retrieval (`latency`, a pure input: the code only appends each
measured time and averages).  The loop counts a case as correct when its
`source_document` occurs among the sources of the `k` retrieved results;
one latency is recorded per case.  The aggregates
`correct_retrievals / total_questions` and
`sum(retrieval_times) / len(retrieval_times)` are unguarded Python
divisions, which raise `ZeroDivisionError` when the test set is empty;
this is modelled by the `Except` error branch. -/
def evaluate_recall_at_k (search : List Char → Nat → List IndexEntry)
    (latency : Nat → ℚ) (test_questions : List TestCase) (k : Nat) :
    Except (List Char) EvalReport :=
  let total_questions := test_questions.length
  let correct_retrievals := (test_questions.filter (correct_retrieval search k)).length
  let retrieval_times := (List.range total_questions).map latency
  if total_questions = 0 then Except.error (("ZeroDivisionError").data)
  else Except.ok ⟨(correct_retrievals : ℚ) / (total_questions : ℚ),
    retrieval_times.sum / (total_questions : ℚ)⟩

/-- Python's substring test `needle in hay` for strings: `needle` occurs
contiguously somewhere in `hay`. -/
def containsSubstr (needle : List Char) : List Char → Bool
  | [] => needle.isEmpty
  | c :: cs => needle.isPrefixOf (c :: cs) || containsSubstr needle cs

/-- Spec-side definition, following the spec's words (§4.4 step 3 and the
glossary): a case's answer is in context iff the expected-answer string is
a case-insensitive literal substring of at least one retrieved chunk's
content.  (`Char.toLower` agrees with Python `str.lower()` on ASCII; the
comparison is only applied to concrete ASCII inputs.) -/
def spec_answer_matched (search : List Char → Nat → List IndexEntry)
    (k : Nat) (tc : TestCase) : Bool :=
  match tc.expected_answer with
  | none => false
  | some ans =>
    (retrieve search tc.question k).any fun d =>
      containsSubstr (ans.map Char.toLower) (d.content.map Char.toLower)

/-- Spec-side definition, following the spec's words (§4.4 step 4):
`answer_in_context_rate = matched_count / total_cases`, omitted entirely
when no test case supplies an expected answer. -/
def spec_answer_in_context_rate (search : List Char → Nat → List IndexEntry)
    (test_questions : List TestCase) (k : Nat) : Option ℚ :=
  if test_questions.all fun tc => tc.expected_answer.isNone then none
  else some (((test_questions.filter (spec_answer_matched search k)).length : ℚ) /
    (test_questions.length : ℚ))

/-!  The `__main__` CLI of evaluation.py (lines 121–132). -/

/-- The digit run of a Python integer literal with underscores allowed
between digits (`int("1_0") == 10`), accumulating the value; the whole
list must be consumed. -/
def pyDigitsAux : Nat → List Char → Option Nat
  | acc, [] => some acc
  | acc, c :: cs =>
    if c.isDigit then pyDigitsAux (acc * 10 + (c.toNat - 48)) cs
    else if c = '_' then
      match cs with
      | d :: ds => if d.isDigit then pyDigitsAux (acc * 10 + (d.toNat - 48)) ds else none
      | [] => none
    else none

/-- A nonempty digit run (no leading underscore), as `int` requires. -/
def pyDigits (l : List Char) : Option Nat :=
  match l with
  | c :: _ => if c.isDigit then pyDigitsAux 0 l else none
  | [] => none

/-- Python's `int(s)` on a decimal string: surrounding whitespace is
ignored, an optional single sign precedes a nonempty digit run; anything
else raises `ValueError`, modelled as `none`.  (Non-ASCII digits, which
`int` also accepts, do not occur in this development.) -/
def pyIntParse (s : List Char) : Option Int :=
  let t := ((s.dropWhile isPySpace).reverse.dropWhile isPySpace).reverse
  match t with
  | '+' :: rest => (pyDigits rest).map Int.ofNat
  | '-' :: rest => (pyDigits rest).map fun n => -(n : Int)
  | rest => (pyDigits rest).map Int.ofNat

/-- The CLI's `k` (evaluation.py lines 121–129): default 3; a provided
argument is parsed with `int`, and on `ValueError` a warning is printed
and the default is kept. -/
def cliK (arg : Option (List Char)) : Int :=
  match arg with
  | none => 3
  | some s =>
    match pyIntParse s with
    | some n => n
    | none => 3

/-- A single test case carrying an expected answer, for probing what the
evaluation report does and does not contain. -/
def tcAns : TestCase := ⟨("q").data, some (("ans").data), ("doc.pdf").data⟩

/-- An index whose one result contains the expected answer in its content
and comes from the expected source. -/
def searchHit : List Char → Nat → List IndexEntry :=
  fun _ _ => [⟨("xx ans yy").data, ⟨some (("doc.pdf").data)⟩, 1⟩]

/-- An index whose one result comes from the expected source but whose
content does not contain the expected answer. -/
def searchMiss : List Char → Nat → List IndexEntry :=
  fun _ _ => [⟨("zzz").data, ⟨some (("doc.pdf").data)⟩, 1⟩]

/-- A latency assignment measuring zero for every retrieval. -/
def latZero : Nat → ℚ := fun _ => 0

/-!  ##  Theorems  -/

/-- C8: a CLI invocation whose single positional argument does not parse
as a Python integer does not fail: the default `k = 3` is substituted and
the run proceeds; an argument that does parse is used as `k`
(evaluation.py lines 121–129; the totality of `cliK` is the model of
"the run does not fail"). -/
theorem cli_k_default_on_invalid (s : List Char) :
    (pyIntParse s = none → cliK (some s) = 3) ∧
    ∀ n : Int, pyIntParse s = some n → cliK (some s) = n := by
  constructor
  · intro h
    simp [cliK, h]
  · intro n h
    simp [cliK, h]

/-- Witness for `cli_k_default_on_invalid`: the argument `two` is not an
integer literal and yields the default 3; the argument `7` yields 7. -/
theorem cli_k_default_on_invalid_witness :
    cliK (some (("two").data)) = 3 ∧ cliK (some (("7").data)) = 7 :=
  ⟨(cli_k_default_on_invalid (("two").data)).1 (by decide),
   (cli_k_default_on_invalid (("7").data)).2 7 (by decide)⟩

/-- C6: metadata extraction is total — it is a Lean function, defined on
every source/text pair including the empty text, and every field of the
record is a string (never null by typing).  When neither title rule
matches, the title is the document's source identifier; when the date
pattern fails the date is the empty string; when the description pattern
fails the description is the empty string. -/
theorem extract_metadata_total_defaults (source text : List Char) :
    (extract_metadata source text).source = source ∧
    (titleRule1 text = none → titleRule2 text = none →
      (extract_metadata source text).title = source) ∧
    (dateSearch text = none → (extract_metadata source text).date = []) ∧
    (descSearch text = none → (extract_metadata source text).description = []) := by
  refine ⟨rfl, ?_, ?_, ?_⟩
  · intro h1 h2
    simp [extract_metadata, h1, h2]
  · intro h
    simp [extract_metadata, h]
  · intro h
    simp [extract_metadata, h]

/-- Witness for `extract_metadata_total_defaults` at the text `hello`
(no title rule, no date, no description match) and at the empty text. -/
theorem extract_metadata_total_defaults_witness :
    ((extract_metadata (("x.pdf").data) (("hello").data)).title = ("x.pdf").data ∧
      (extract_metadata (("x.pdf").data) (("hello").data)).date = [] ∧
      (extract_metadata (("x.pdf").data) (("hello").data)).description = []) ∧
    (extract_metadata (("x.pdf").data) []).title = ("x.pdf").data :=
  ⟨⟨(extract_metadata_total_defaults (("x.pdf").data) (("hello").data)).2.1
      (by decide) (by decide),
    (extract_metadata_total_defaults (("x.pdf").data) (("hello").data)).2.2.1
      (by decide),
    (extract_metadata_total_defaults (("x.pdf").data) (("hello").data)).2.2.2
      (by decide)⟩,
   (extract_metadata_total_defaults (("x.pdf").data) []).2.1 (by decide) (by decide)⟩

/-- C5: `retrieve` returns the index's triples reshaped into the
`{content, metadata, relevance_score}` structure with the index's order
preserved; consequently, under the index's contract of returning at most
`k` results sorted by non-increasing score, `retrieve(query, k)` returns
at most `k` results ordered by non-increasing `relevance_score`. -/
theorem retrieve_shape_order (search : List Char → Nat → List IndexEntry)
    (query : List Char) (k : Nat) (_hk : 0 < k)
    (hlen : (search query k).length ≤ k)
    (hsorted : (search query k).Sorted fun a b => b.score ≤ a.score) :
    (retrieve search query k).length ≤ k ∧
    ((retrieve search query k).Sorted fun a b =>
      b.relevance_score ≤ a.relevance_score) ∧
    retrieve search query k =
      (search query k).map fun e => ⟨e.content, e.meta, e.score⟩ := by
  refine ⟨?_, ?_, rfl⟩
  · simpa [retrieve] using hlen
  · exact List.Pairwise.map _ (fun a b h => h) hsorted

/-- Witness for `retrieve_shape_order` at a one-entry index and `k = 1`. -/
theorem retrieve_shape_order_witness :
    (retrieve searchHit (("q").data) 1).length ≤ 1 ∧
    ((retrieve searchHit (("q").data) 1).Sorted fun a b =>
      b.relevance_score ≤ a.relevance_score) ∧
    retrieve searchHit (("q").data) 1 =
      (searchHit (("q").data) 1).map fun e => ⟨e.content, e.meta, e.score⟩ :=
  retrieve_shape_order searchHit (("q").data) 1 (by decide) (by decide)
    (List.sorted_singleton _)

/-- C9: the aggregates of `evaluate_recall_at_k` are unguarded divisions
by the number of test cases (evaluation.py lines 96–97); on an empty test
set the run fails with `ZeroDivisionError` instead of returning a report,
and on any non-empty test set the division is defined and a report is
returned. -/
theorem evaluate_empty_division_error
    (search : List Char → Nat → List IndexEntry) (latency : Nat → ℚ) (k : Nat) :
    evaluate_recall_at_k search latency [] k =
      Except.error (("ZeroDivisionError").data) ∧
    ∀ test_questions : List TestCase, test_questions ≠ [] →
      ∃ r, evaluate_recall_at_k search latency test_questions k = Except.ok r := by
  constructor
  · rfl
  · intro tq h
    have hne : tq.length ≠ 0 := by simpa [List.length_eq_zero] using h
    exact ⟨⟨((tq.filter (correct_retrieval search k)).length : ℚ) / (tq.length : ℚ),
      ((List.range tq.length).map latency).sum / (tq.length : ℚ)⟩, by
        unfold evaluate_recall_at_k
        rw [if_neg hne]⟩

/-- Witness for `evaluate_empty_division_error`: a singleton test set
yields a report. -/
theorem evaluate_empty_division_error_witness :
    ∃ r, evaluate_recall_at_k searchHit latZero [tcAns] 3 = Except.ok r :=
  (evaluate_empty_division_error searchHit latZero 3).2 [tcAns] (by decide)

/-- Helper: the loop's membership test (`source_doc in sources`,
evaluation.py line 80) holds exactly when some retrieved result's
(defaulted) source equals the case's `source_document`. -/
theorem correct_retrieval_iff (search : List Char → Nat → List IndexEntry)
    (k : Nat) (tc : TestCase) :
    correct_retrieval search k tc = true ↔ spec_correct_case search k tc := by
  simp only [correct_retrieval, sourcesOf, List.contains, List.elem_iff,
    List.mem_map, spec_correct_case]

/-- C3: on every non-empty test set and every `k`, the evaluation
processes the cases in order, counts a case as correct exactly when its
`source_document` equals the (defaulted) source of at least one result of
`retrieve(question, k)`, and its report's `recall_at_k` is the number of
correct cases divided by the total number of cases. -/
theorem recall_counts_source_hits (search : List Char → Nat → List IndexEntry)
    (latency : Nat → ℚ) (test_questions : List TestCase) (k : Nat)
    (h : test_questions ≠ []) :
    ∃ r, evaluate_recall_at_k search latency test_questions k = Except.ok r ∧
      r.recall_at_k =
        ((test_questions.filter fun tc =>
          decide (spec_correct_case search k tc)).length : ℚ) /
        (test_questions.length : ℚ) := by
  have hne : test_questions.length ≠ 0 := by simpa [List.length_eq_zero] using h
  have hfilter : test_questions.filter (correct_retrieval search k) =
      test_questions.filter fun tc => decide (spec_correct_case search k tc) := by
    refine List.filter_congr fun tc _ => ?_
    rw [Bool.eq_iff_iff, decide_eq_true_eq]
    exact correct_retrieval_iff search k tc
  refine ⟨⟨((test_questions.filter fun tc =>
      decide (spec_correct_case search k tc)).length : ℚ) /
        (test_questions.length : ℚ),
    ((List.range test_questions.length).map latency).sum /
      (test_questions.length : ℚ)⟩, ?_, rfl⟩
  unfold evaluate_recall_at_k
  rw [if_neg hne, hfilter]

/-- Witness for `recall_counts_source_hits` at a concrete singleton test
set and index. -/
theorem recall_counts_source_hits_witness :
    ∃ r, evaluate_recall_at_k searchMiss latZero [tcAns] 2 = Except.ok r ∧
      r.recall_at_k =
        (([tcAns].filter fun tc =>
          decide (spec_correct_case searchMiss 2 tc)).length : ℚ) /
        (([tcAns] : List TestCase).length : ℚ) :=
  recall_counts_source_hits searchMiss latZero [tcAns] 2 (by decide)

/-- C2 (counterexample): the claim says the report of the evaluation
contains `answer_in_context_rate = matched_count / total_cases` whenever
some case supplies an expected answer.  It does not: `expected_answer` is
never read (no answer-in-context computation exists anywhere in the
code), so two runs whose spec-defined answer-in-context rates differ —
here 1 and 0, over a test set all of whose cases supply an expected
answer — produce identical reports.  No report field can equal both
rates. -/
theorem answer_rate_not_in_report :
    (([tcAns] : List TestCase).all fun tc => tc.expected_answer.isSome) = true ∧
    evaluate_recall_at_k searchHit latZero [tcAns] 3 =
      evaluate_recall_at_k searchMiss latZero [tcAns] 3 ∧
    spec_answer_in_context_rate searchHit [tcAns] 3 ≠
      spec_answer_in_context_rate searchMiss [tcAns] 3 := by
  refine ⟨rfl, rfl, ?_⟩
  intro h
  have ha : ([tcAns].filter (spec_answer_matched searchHit 3)).length = 1 := by decide
  have hb : ([tcAns].filter (spec_answer_matched searchMiss 3)).length = 0 := by decide
  have hall : ([tcAns].all fun tc => tc.expected_answer.isNone) = false := by decide
  simp only [spec_answer_in_context_rate, hall, Bool.false_eq_true, if_false,
    ha, hb, List.length_cons, List.length_nil, Nat.cast_one, Nat.cast_zero,
    Nat.cast_ofNat, Option.some.injEq] at h
  norm_num at h

/-- C2 (amended): the evaluation report contains only `recall_at_k` and
`avg_retrieval_time`; the `expected_answer` field of the test cases is
never read, so replacing every case's expected answer by anything at all
leaves the report unchanged. -/
theorem evaluate_ignores_expected_answer
    (search : List Char → Nat → List IndexEntry) (latency : Nat → ℚ)
    (test_questions : List TestCase) (k : Nat)
    (f : TestCase → Option (List Char)) :
    evaluate_recall_at_k search latency
      (test_questions.map fun tc => ⟨tc.question, f tc, tc.source_document⟩) k =
    evaluate_recall_at_k search latency test_questions k := by
  have hp : (correct_retrieval search k) ∘
      (fun tc : TestCase => (⟨tc.question, f tc, tc.source_document⟩ : TestCase)) =
      correct_retrieval search k := rfl
  unfold evaluate_recall_at_k
  rw [List.filter_map, hp, List.length_map, List.length_map]

/-- Helper for the boundary-sort stability: filtering one question-number
class commutes with ordered insertion, because every element that
`orderedInsert` passes over has a strictly smaller key than the inserted
element. -/
theorem filter_orderedInsert_qnum (n : Nat) (a : Boundary) (m : List Boundary) :
    (List.orderedInsert qnumLE a m).filter (fun b => decide (b.qnum = n)) =
      if a.qnum = n then
        a :: m.filter fun b => decide (b.qnum = n)
      else m.filter fun b => decide (b.qnum = n) := by
  induction m with
  | nil =>
    by_cases h : a.qnum = n <;> simp [List.orderedInsert, List.filter, h]
  | cons b bs ih =>
    by_cases hab : qnumLE a b
    · rw [List.orderedInsert, if_pos hab]
      by_cases han : a.qnum = n <;> simp [List.filter_cons, han]
    · rw [List.orderedInsert, if_neg hab]
      have hlt : b.qnum < a.qnum := Nat.lt_of_not_le hab
      by_cases han : a.qnum = n
      · have hbn : ¬ b.qnum = n := by omega
        simp [List.filter_cons, hbn, ih, han]
      · by_cases hbn : b.qnum = n <;>
          simp [List.filter_cons, hbn, ih, han]

/-- Helper: the boundary sort is stable in the filter sense — each
question-number class of the sorted list is exactly that class of the
input list, in the input's order. -/
theorem filter_sortByQnum (n : Nat) (l : List Boundary) :
    (sortByQnum l).filter (fun b => decide (b.qnum = n)) =
      l.filter fun b => decide (b.qnum = n) := by
  induction l with
  | nil => rfl
  | cons a as ih =>
    show (List.orderedInsert qnumLE a (List.insertionSort qnumLE as)).filter _ = _
    rw [filter_orderedInsert_qnum]
    have has : List.insertionSort qnumLE as = sortByQnum as := rfl
    by_cases h : a.qnum = n
    · rw [if_pos h, has, ih]
      simp [List.filter_cons, h]
    · rw [if_neg h, has, ih]
      simp [List.filter_cons, h]

/-- C10: the boundary sort used by `chunk_documents` is stable with
respect to text position — for a boundary list recorded in increasing
position order (as the scan produces it), every class of equal parsed
question numbers appears in the sorted output in the input's order, i.e.
with strictly increasing positions. -/
theorem boundary_sort_stable (l : List Boundary)
    (hpos : l.Pairwise fun a b => a.pos < b.pos) :
    (∀ n, (sortByQnum l).filter (fun b => decide (b.qnum = n)) =
      l.filter fun b => decide (b.qnum = n)) ∧
    ∀ n, ((sortByQnum l).filter fun b => decide (b.qnum = n)).Pairwise
      fun a b => a.pos < b.pos := by
  refine ⟨fun n => filter_sortByQnum n l, fun n => ?_⟩
  rw [filter_sortByQnum]
  exact hpos.filter _

/-- Witness for `boundary_sort_stable`, at the boundary list actually
scanned from a document with two question markers both numbered 1. -/
theorem boundary_sort_stable_witness :
    (∀ n, (sortByQnum (boundariesOf (findQuestionMatches dupText))).filter
        (fun b => decide (b.qnum = n)) =
      (boundariesOf (findQuestionMatches dupText)).filter
        fun b => decide (b.qnum = n)) ∧
    ∀ n, ((sortByQnum (boundariesOf (findQuestionMatches dupText))).filter
        fun b => decide (b.qnum = n)).Pairwise fun a b => a.pos < b.pos :=
  boundary_sort_stable _ (by decide)

/-- Helper: the unfolding equation of the chunk-emission loop at a cons
cell (the `let`s of the definition zeta-reduce). -/
theorem chunksFromBoundaries_cons (md : DocMetadata) (text : List Char)
    (b : Boundary) (rest : List Boundary) :
    chunksFromBoundaries md text (b :: rest) =
      if clean_text (stripSpaces
          ((text.drop b.pos).take (endPosOf text rest - b.pos))) = [] then
        chunksFromBoundaries md text rest
      else
        ⟨clean_text (stripSpaces
            ((text.drop b.pos).take (endPosOf text rest - b.pos))), md,
          some (stripLeadingNumber b.qtext), some b.qnum⟩ ::
          chunksFromBoundaries md text rest := rfl

/-- Helper: the corresponding unfolding of the zip-with-next description
at a cons cell. -/
theorem specSpanChunks_cons (md : DocMetadata) (text : List Char)
    (b : Boundary) (rest : List Boundary) :
    specSpanChunks md text (b :: rest) =
      if clean_text (stripSpaces
          ((text.drop b.pos).take (endPosOf text rest - b.pos))) = [] then
        specSpanChunks md text rest
      else
        ⟨clean_text (stripSpaces
            ((text.drop b.pos).take (endPosOf text rest - b.pos))), md,
          some (stripLeadingNumber b.qtext), some b.qnum⟩ ::
          specSpanChunks md text rest := by
  cases rest with
  | nil =>
    by_cases hc : clean_text (stripSpaces
        ((text.drop b.pos).take (text.length - b.pos))) = [] <;>
      simp [specSpanChunks, List.filterMap_cons, endPosOf, hc]
  | cons b2 rest2 =>
    by_cases hc : clean_text (stripSpaces
        ((text.drop b.pos).take (b2.pos - b.pos))) = [] <;>
      simp only [specSpanChunks, List.tail_cons, List.map_cons,
        List.cons_append, List.zip_cons_cons, List.filterMap_cons,
        endPosOf, hc, if_true, if_false, ite_true, ite_false]

/-- Helper: the chunk-emission loop over a boundary list coincides with
the independent description that zips each boundary with the next
boundary's position (end of text for the last). -/
theorem chunksFromBoundaries_eq_spec (md : DocMetadata) (text : List Char) :
    ∀ bs, chunksFromBoundaries md text bs = specSpanChunks md text bs := by
  intro bs
  induction bs with
  | nil => rfl
  | cons b rest ih =>
    rw [chunksFromBoundaries_cons, specSpanChunks_cons, ih]

/-- C1: whenever the boundary scan (question pattern, or the looser
simple pattern) finds at least one match, `chunk_documents` sorts the
recorded boundary list by parsed question number — the sorted list is a
permutation of the recorded list ordered by `qnum`, not by text
position — and then emits, for each sorted boundary, the chunk of the raw
span from its position to the next sorted boundary's position (end of
text for the last), dropping empty-after-normalization spans; in
particular the two-question demo text yields exactly the two chunks of
the spec's concrete scenario. -/
theorem chunk_spans_sorted_by_qnum :
    (∀ (splitter : List Char → List (List Char)) (src text : List Char),
      findQuestionMatches text ≠ [] →
      (sortByQnum (boundariesOf (findQuestionMatches text))).Perm
          (boundariesOf (findQuestionMatches text)) ∧
      List.Sorted qnumLE (sortByQnum (boundariesOf (findQuestionMatches text))) ∧
      chunk_documents splitter [⟨src, text⟩] =
        specSpanChunks (extract_metadata src text) text
          (sortByQnum (boundariesOf (findQuestionMatches text)))) ∧
    chunk_documents singleWindow [⟨("demo.pdf").data, demoText⟩] =
      [demoChunk1, demoChunk2] := by
  constructor
  · intro splitter src text h
    refine ⟨List.perm_insertionSort _ _, List.sorted_insertionSort _ _, ?_⟩
    simp only [chunk_documents, List.flatMap_cons, List.flatMap_nil,
      List.append_nil]
    rw [if_neg h]
    exact chunksFromBoundaries_eq_spec _ _ _
  · decide

/-- Witness for `chunk_spans_sorted_by_qnum`, instantiated at the demo
text (where the scan finds two boundaries). -/
theorem chunk_spans_sorted_by_qnum_witness :
    (sortByQnum (boundariesOf (findQuestionMatches demoText))).Perm
        (boundariesOf (findQuestionMatches demoText)) ∧
    List.Sorted qnumLE (sortByQnum (boundariesOf (findQuestionMatches demoText))) ∧
    chunk_documents singleWindow [⟨("demo.pdf").data, demoText⟩] =
      specSpanChunks (extract_metadata (("demo.pdf").data) demoText) demoText
        (sortByQnum (boundariesOf (findQuestionMatches demoText))) :=
  chunk_spans_sorted_by_qnum.1 singleWindow (("demo.pdf").data) demoText (by decide)

/-- Helper: every chunk emitted by the question-anchored loop has
non-empty content, and its content is the normalization of a stripped raw
span. -/
theorem mem_chunksFromBoundaries (md : DocMetadata) (text : List Char) :
    ∀ bs c, c ∈ chunksFromBoundaries md text bs →
      c.content ≠ [] ∧ ∃ raw, c.content = clean_text (stripSpaces raw) := by
  intro bs
  induction bs with
  | nil =>
    intro c hc
    cases hc
  | cons b rest ih =>
    intro c hc
    rw [chunksFromBoundaries_cons] at hc
    split at hc
    case isTrue hct => exact ih c hc
    case isFalse hct =>
      rcases List.mem_cons.mp hc with rfl | hmem
      · exact ⟨hct, _, rfl⟩
      · exact ih c hmem

/-- C4 (amended): every emitted chunk's content passes through the
normalization step — but the empty-content drop happens only in the
question-anchored branch.  In fallback mode the emitted chunks are
exactly the cleaned splitter windows, one chunk per window with no
emptiness check; in question-anchored mode every emitted chunk is
non-empty normalized text. -/
theorem chunks_normalized_empty_drop (splitter : List Char → List (List Char))
    (d : RawDoc) :
    (findQuestionMatches d.text = [] →
      chunk_documents splitter [d] =
        (splitter d.text).map fun w =>
          ⟨clean_text w, extract_metadata d.source d.text, none, none⟩) ∧
    (findQuestionMatches d.text ≠ [] →
      ∀ c ∈ chunk_documents splitter [d],
        c.content ≠ [] ∧ ∃ raw, c.content = clean_text (stripSpaces raw)) := by
  constructor
  · intro h
    simp only [chunk_documents, List.flatMap_cons, List.flatMap_nil,
      List.append_nil]
    rw [if_pos h]
  · intro h c hc
    simp only [chunk_documents, List.flatMap_cons, List.flatMap_nil,
      List.append_nil] at hc
    rw [if_neg h] at hc
    exact mem_chunksFromBoundaries _ _ _ c hc

/-- C4 (counterexample): in fallback mode an empty-after-normalization
chunk is *not* dropped.  The document `Page 1 of 2` has no question
boundary, its single fallback window normalizes to the empty string, and
`chunk_documents` emits that chunk with empty content — refuting "every
chunk whose content is empty after normalization is dropped, in both
modes". -/
theorem fallback_empty_chunk_emitted :
    clean_text (("Page 1 of 2").data) = [] ∧
    (chunk_documents singleWindow [⟨("p.pdf").data, ("Page 1 of 2").data⟩]).map
      Chunk.content = [[]] :=
  ⟨by decide, by decide⟩

/-- Helper: every character of the whitespace collapse's output is a
character of the input or the space that replaced a run. -/
theorem mem_collapseWS :
    ∀ (l : List Char) (c : Char), c ∈ collapseWS l → c ∈ l ∨ c = ' '
  | [], c, hc => absurd hc (List.not_mem_nil c)
  | [d], c, hc => by
    simp only [collapseWS, List.mem_singleton] at hc
    by_cases hd : isPySpace d = true
    · rw [if_pos hd] at hc
      exact Or.inr hc
    · rw [if_neg hd] at hc
      exact Or.inl (hc ▸ List.mem_singleton_self d)
  | d :: e :: cs, c, hc => by
    by_cases hde : (isPySpace d && isPySpace e) = true
    · rw [show collapseWS (d :: e :: cs) = collapseWS (e :: cs) from by
        simp only [collapseWS]; rw [if_pos hde]] at hc
      rcases mem_collapseWS (e :: cs) c hc with h | h
      · exact Or.inl (List.mem_cons_of_mem d h)
      · exact Or.inr h
    · rw [show collapseWS (d :: e :: cs) =
          (if isPySpace d then ' ' else d) :: collapseWS (e :: cs) from by
        simp only [collapseWS]; rw [if_neg hde]] at hc
      rcases List.mem_cons.mp hc with h | h
      · by_cases hd : isPySpace d = true
        · rw [if_pos hd] at h
          exact Or.inr h
        · rw [if_neg hd] at h
          exact Or.inl (h ▸ List.mem_cons_self d _)
      · rcases mem_collapseWS (e :: cs) c h with h2 | h2
        · exact Or.inl (List.mem_cons_of_mem d h2)
        · exact Or.inr h2

/-- Helper: every whitespace character surviving the collapse is the
plain space character. -/
theorem mem_collapseWS_space :
    ∀ (l : List Char) (c : Char), c ∈ collapseWS l → c = ' ' ∨ isPySpace c = false
  | [], c, hc => absurd hc (List.not_mem_nil c)
  | [d], c, hc => by
    simp only [collapseWS, List.mem_singleton] at hc
    by_cases hd : isPySpace d = true
    · rw [if_pos hd] at hc
      exact Or.inl hc
    · rw [if_neg hd] at hc
      exact Or.inr (hc ▸ eq_false_of_ne_true hd)
  | d :: e :: cs, c, hc => by
    by_cases hde : (isPySpace d && isPySpace e) = true
    · rw [show collapseWS (d :: e :: cs) = collapseWS (e :: cs) from by
        simp only [collapseWS]; rw [if_pos hde]] at hc
      exact mem_collapseWS_space (e :: cs) c hc
    · rw [show collapseWS (d :: e :: cs) =
          (if isPySpace d then ' ' else d) :: collapseWS (e :: cs) from by
        simp only [collapseWS]; rw [if_neg hde]] at hc
      rcases List.mem_cons.mp hc with h | h
      · by_cases hd : isPySpace d = true
        · rw [if_pos hd] at h
          exact Or.inl h
        · rw [if_neg hd] at h
          exact Or.inr (h ▸ eq_false_of_ne_true hd)
      · exact mem_collapseWS_space (e :: cs) c h

/-- Helper: the collapse of a list beginning with a non-whitespace
character begins with that character. -/
theorem head?_collapseWS (d : Char) (cs : List Char) (hd : isPySpace d = false) :
    (collapseWS (d :: cs)).head? = some d := by
  cases cs with
  | nil =>
    simp only [collapseWS]
    rw [if_neg (by simp [hd])]
    rfl
  | cons e cs' =>
    simp only [collapseWS]
    rw [if_neg (by simp [hd]), if_neg (by simp [hd])]
    rfl

/-- Helper: the collapse's output never has two adjacent whitespace
characters. -/
theorem chain'_collapseWS :
    ∀ (l : List Char),
      (collapseWS l).Chain' fun a b => isPySpace a = false ∨ isPySpace b = false
  | [] => List.chain'_nil
  | [d] => by
    simp only [collapseWS]
    exact List.chain'_singleton _
  | d :: e :: cs => by
    by_cases hde : (isPySpace d && isPySpace e) = true
    · rw [show collapseWS (d :: e :: cs) = collapseWS (e :: cs) from by
        simp only [collapseWS]; rw [if_pos hde]]
      exact chain'_collapseWS (e :: cs)
    · rw [show collapseWS (d :: e :: cs) =
          (if isPySpace d then ' ' else d) :: collapseWS (e :: cs) from by
        simp only [collapseWS]; rw [if_neg hde]]
      rw [List.chain'_cons']
      refine ⟨?_, chain'_collapseWS (e :: cs)⟩
      intro y hy
      by_cases hd : isPySpace d = true
      · have he : isPySpace e = false := by
          cases hpe : isPySpace e with
          | false => rfl
          | true => exact absurd (by simp [hd, hpe]) hde
        rw [head?_collapseWS e cs he] at hy
        simp only [Option.mem_def, Option.some_inj] at hy
        subst hy
        exact Or.inr he
      · rw [if_neg hd]
        exact Or.inl (eq_false_of_ne_true hd)

/-- Helper: dropping a prefix preserves the no-adjacent-pair property. -/
theorem chain'_dropWhile {R : Char → Char → Prop} (q : Char → Bool) :
    ∀ (l : List Char), l.Chain' R → (l.dropWhile q).Chain' R
  | [], h => h
  | c :: cs, h => by
    rw [List.dropWhile_cons]
    split
    · exact chain'_dropWhile q cs h.tail
    · exact h

/-- Helper: stripping both ends preserves the no-adjacent-pair property
(each end is removed by a `dropWhile` through a reversal, and reversing
twice restores the relation's orientation). -/
theorem chain'_stripSpaces {R : Char → Char → Prop} (l : List Char)
    (h : l.Chain' R) : (stripSpaces l).Chain' R := by
  unfold stripSpaces
  rw [List.chain'_reverse]
  apply chain'_dropWhile
  rw [List.chain'_reverse]
  exact chain'_dropWhile _ l h

/-- Helper: stripping only removes characters. -/
theorem mem_stripSpaces (l : List Char) (c : Char) (hc : c ∈ stripSpaces l) :
    c ∈ l := by
  unfold stripSpaces at hc
  rw [List.mem_reverse] at hc
  have h1 : c ∈ (l.dropWhile isPySpace).reverse :=
    List.Sublist.mem hc (List.dropWhile_sublist _)
  rw [List.mem_reverse] at h1
  exact List.Sublist.mem h1 (List.dropWhile_sublist _)

/-- Helper: the head of a `dropWhile` never satisfies the predicate. -/
theorem head?_dropWhile_not (q : Char → Bool) :
    ∀ (l : List Char) (c : Char), (l.dropWhile q).head? = some c → q c = false
  | [], c, h => by simp [List.dropWhile] at h
  | d :: cs, c, h => by
    rw [List.dropWhile_cons] at h
    split at h
    · exact head?_dropWhile_not q cs c h
    case isFalse hqd =>
      simp only [List.head?_cons, Option.some_inj] at h
      exact h ▸ eq_false_of_ne_true hqd

/-- Helper: the last character of a stripped string is not whitespace. -/
theorem stripSpaces_getLast (l : List Char) (c : Char)
    (h : (stripSpaces l).getLast? = some c) : isPySpace c = false := by
  unfold stripSpaces at h
  rw [List.getLast?_reverse] at h
  exact head?_dropWhile_not _ _ c h

/-- Helper: the first character of a stripped string is not whitespace. -/
theorem stripSpaces_head (l : List Char) (c : Char)
    (h : (stripSpaces l).head? = some c) : isPySpace c = false := by
  unfold stripSpaces at h
  rw [List.head?_reverse] at h
  obtain ⟨t, ht⟩ :=
    List.dropWhile_suffix (l := (l.dropWhile isPySpace).reverse) isPySpace
  have hlast : ((l.dropWhile isPySpace).reverse).getLast? = some c := by
    rw [← ht, List.getLast?_append, h]
    rfl
  rw [List.getLast?_reverse] at hlast
  exact head?_dropWhile_not _ _ c hlast

/-- Helper: `dropWhile` is the identity when the head (if any) fails the
predicate. -/
theorem dropWhile_eq_self_of_head (q : Char → Bool) (l : List Char)
    (h : ∀ c, l.head? = some c → q c = false) : l.dropWhile q = l := by
  cases l with
  | nil => rfl
  | cons d cs =>
    rw [List.dropWhile_cons, if_neg]
    simp [h d rfl]

/-- Helper: stripping is the identity on a string whose two ends are not
whitespace. -/
theorem stripSpaces_eq_self (l : List Char)
    (hhead : ∀ c, l.head? = some c → isPySpace c = false)
    (hlast : ∀ c, l.getLast? = some c → isPySpace c = false) :
    stripSpaces l = l := by
  unfold stripSpaces
  rw [dropWhile_eq_self_of_head _ l hhead]
  rw [dropWhile_eq_self_of_head _ l.reverse
    (fun c hc => hlast c (by rwa [List.head?_reverse] at hc))]
  exact List.reverse_reverse l

/-- Helper: the whitespace collapse is the identity on a string with no
adjacent whitespace pair in which every whitespace character is the plain
space. -/
theorem collapseWS_eq_self :
    ∀ (l : List Char),
      l.Chain' (fun a b => isPySpace a = false ∨ isPySpace b = false) →
      (∀ c ∈ l, isPySpace c = true → c = ' ') → collapseWS l = l
  | [], _, _ => rfl
  | [d], _, hsp => by
    simp only [collapseWS]
    by_cases hd : isPySpace d = true
    · rw [if_pos hd, hsp d (List.mem_singleton_self d) hd]
    · rw [if_neg hd]
  | d :: e :: cs, hch, hsp => by
    have hde : ¬ (isPySpace d && isPySpace e) = true := by
      rcases (List.chain'_cons.mp hch).1 with h1 | h1 <;> simp [h1]
    simp only [collapseWS]
    rw [if_neg hde,
      collapseWS_eq_self (e :: cs) (List.chain'_cons.mp hch).2
        (fun c hc h' => hsp c (List.mem_cons_of_mem d hc) h')]
    by_cases hd : isPySpace d = true
    · rw [if_pos hd, hsp d (List.mem_cons_self d _) hd]
    · rw [if_neg hd]

/-- Helper: the hyphen-rejoining substitution is the identity on a string
containing no hyphen (the pattern requires a literal `-`). -/
theorem hyphenFix_eq_self (fuel : Nat) :
    ∀ (l : List Char), (∀ c ∈ l, c ≠ '-') → hyphenFix fuel l = l := by
  induction fuel with
  | zero =>
    intro l _
    rfl
  | succ fuel ih =>
    intro l h
    cases l with
    | nil => rfl
    | cons a rest =>
      have hcond : ¬ (isPyWord a = true ∧ rest.head? = some '-') := by
        rintro ⟨-, hh⟩
        cases rest with
        | nil => simp at hh
        | cons r rs =>
          simp only [List.head?_cons, Option.some_inj] at hh
          exact h r (List.mem_cons_of_mem a (List.mem_cons_self r rs)) hh
      simp only [hyphenFix]
      rw [if_neg hcond, ih rest (fun c hc => h c (List.mem_cons_of_mem a hc))]

/-- Helper: the `Page N of M` pattern cannot match a digit-free string
(it requires a digit after the literal `Page `). -/
theorem pageMatchAt_eq_none (l : List Char)
    (h : ∀ c ∈ l, c.isDigit = false) : pageMatchAt l = none := by
  have hds : (l.drop 5).takeWhile Char.isDigit = [] := by
    cases h5 : l.drop 5 with
    | nil => rfl
    | cons x xs =>
      have hx : x ∈ l := List.drop_subset 5 l (h5 ▸ List.mem_cons_self x xs)
      rw [List.takeWhile_cons, if_neg]
      simp [h x hx]
  simp only [pageMatchAt]
  rw [hds]
  simp

/-- Helper: the page-artifact removal is the identity on a digit-free
string. -/
theorem pageRemove_eq_self (fuel : Nat) :
    ∀ (l : List Char), (∀ c ∈ l, c.isDigit = false) → pageRemove fuel l = l := by
  induction fuel with
  | zero =>
    intro l _
    rfl
  | succ fuel ih =>
    intro l h
    cases l with
    | nil => rfl
    | cons c cs =>
      simp only [pageRemove]
      rw [pageMatchAt_eq_none _ h]
      rw [ih cs (fun x hx => h x (List.mem_cons_of_mem c hx))]

/-- Helper: on a hyphen-free, digit-free string `clean_text` reduces to
whitespace collapse and strip (the hyphen and page substitutions are
identities, and NFKC is modelled as the identity). -/
theorem clean_text_eq_collapse_strip (l : List Char)
    (h : ∀ c ∈ l, c ≠ '-' ∧ c.isDigit = false) :
    clean_text l = stripSpaces (collapseWS l) := by
  have hchars : ∀ c ∈ stripSpaces (collapseWS l), c ≠ '-' ∧ c.isDigit = false := by
    intro c hc
    rcases mem_collapseWS l c (mem_stripSpaces (collapseWS l) c hc) with h1 | h1
    · exact h c h1
    · subst h1
      exact ⟨by decide, by decide⟩
  have e1 : clean_text l =
      pageRemove ((hyphenFix ((stripSpaces (collapseWS l)).length + 1)
          (stripSpaces (collapseWS l))).length + 1)
        (hyphenFix ((stripSpaces (collapseWS l)).length + 1)
          (stripSpaces (collapseWS l))) := rfl
  rw [e1, hyphenFix_eq_self _ _ (fun c hc => (hchars c hc).1),
    pageRemove_eq_self _ _ (fun c hc => (hchars c hc).2)]

/-- Helper: `clean_text` fixes a hyphen-free, digit-free string that is
already normalized (no adjacent whitespace, all whitespace is the plain
space, no whitespace at either end). -/
theorem clean_text_fixed (m : List Char)
    (hch : m.Chain' fun a b => isPySpace a = false ∨ isPySpace b = false)
    (hsp : ∀ c ∈ m, isPySpace c = true → c = ' ')
    (hhead : ∀ c, m.head? = some c → isPySpace c = false)
    (hlast : ∀ c, m.getLast? = some c → isPySpace c = false)
    (hpl : ∀ c ∈ m, c ≠ '-' ∧ c.isDigit = false) :
    clean_text m = m := by
  rw [clean_text_eq_collapse_strip m hpl, collapseWS_eq_self m hch hsp,
    stripSpaces_eq_self m hhead hlast]

/-- C7 (counterexample): `clean_text` is not idempotent.  Removing the
page artifact from `a Page 1 of 2 b` leaves the double space `a  b`,
which a second normalization pass collapses to `a b`. -/
theorem clean_text_not_idempotent :
    clean_text (clean_text (("a Page 1 of 2 b").data)) ≠
      clean_text (("a Page 1 of 2 b").data) := by decide

/-- C7 (amended): the normalization is idempotent on ASCII strings
containing no digit and no hyphen — on such strings the hyphen-rejoining
and page-artifact substitutions are identities, and the whitespace
collapse-and-strip is idempotent.  (In general a second pass can differ:
page-artifact removal leaves doubled spaces and hyphen rejoining can
cascade, as the counterexample shows.) -/
theorem clean_text_idempotent_no_digit_hyphen (l : List Char)
    (h : ∀ c ∈ l, c.val ≤ 127 ∧ c ≠ '-' ∧ c.isDigit = false) :
    clean_text (clean_text l) = clean_text l := by
  have h1 : ∀ c ∈ l, c ≠ '-' ∧ c.isDigit = false := fun c hc => (h c hc).2
  rw [clean_text_eq_collapse_strip l h1]
  have hmem : ∀ c ∈ stripSpaces (collapseWS l), c ∈ l ∨ c = ' ' := fun c hc =>
    mem_collapseWS l c (mem_stripSpaces (collapseWS l) c hc)
  have hpl : ∀ c ∈ stripSpaces (collapseWS l), c ≠ '-' ∧ c.isDigit = false := by
    intro c hc
    rcases hmem c hc with hcl | hcsp
    · exact h1 c hcl
    · subst hcsp
      exact ⟨by decide, by decide⟩
  have hsp : ∀ c ∈ stripSpaces (collapseWS l), isPySpace c = true → c = ' ' := by
    intro c hc hT
    rcases mem_collapseWS_space l c (mem_stripSpaces (collapseWS l) c hc) with h' | h'
    · exact h'
    · exact absurd hT (by simp [h'])
  exact clean_text_fixed _
    (chain'_stripSpaces _ (chain'_collapseWS l)) hsp
    (fun c hc => stripSpaces_head _ c hc)
    (fun c hc => stripSpaces_getLast _ c hc) hpl

/-- Witness for `clean_text_idempotent_no_digit_hyphen` at a concrete
letters-and-spaces string. -/
theorem clean_text_idempotent_no_digit_hyphen_witness :
    clean_text (clean_text (("hello   world ").data)) =
      clean_text (("hello   world ").data) :=
  clean_text_idempotent_no_digit_hyphen (("hello   world ").data) (by decide)

/-- Witness for `chunks_normalized_empty_drop`: both branches
instantiated — the fallback branch at the page-artifact document and the
question branch at the demo text. -/
theorem chunks_normalized_empty_drop_witness :
    (chunk_documents singleWindow [⟨("p.pdf").data, ("Page 1 of 2").data⟩] =
      (singleWindow (("Page 1 of 2").data)).map fun w =>
        ⟨clean_text w, extract_metadata (("p.pdf").data) (("Page 1 of 2").data),
          none, none⟩) ∧
    ∀ c ∈ chunk_documents singleWindow [⟨("demo.pdf").data, demoText⟩],
      c.content ≠ [] ∧ ∃ raw, c.content = clean_text (stripSpaces raw) :=
  ⟨(chunks_normalized_empty_drop singleWindow
      ⟨("p.pdf").data, ("Page 1 of 2").data⟩).1 (by decide),
   (chunks_normalized_empty_drop singleWindow
      ⟨("demo.pdf").data, demoText⟩).2 (by decide)⟩

end RAG
